import Mathlib

/-!
# Relational core of the car-crash analysis program

Shallow embedding of `src/solution.py`.  The script drives a small relational
engine: six input tables, a handful of relational operators, and eight fixed
analysis pipelines (`analysis1` … `analysis8`).  The script itself only
composes operators obtained from an external dataframe library, so the
operator semantics below follow the specification's contracts for them
(filter/join/group-by/order-by/limit/rank/distinct), while the eight pipelines
are translated line by line from the source.

Tables are lists of rows; a row is an association list from column names to
null-capable values.  All CSV values load as strings; numeric columns are
parsed on use.
-/

/-- A cell value: the closed value kind of the spec (string / integer /
null-capable).  CSV ingestion produces `str` values; counts and sums are
`int`. -/
inductive Value where
  | null
  | int (n : Int)
  | str (s : String)
deriving DecidableEq, Repr

abbrev Row := List (String × Value)

abbrev Table := List Row

/-- Column lookup in a row.  A missing column reads as `null` (missing and
null values are not distinguished by any of the predicates). -/
def getV (r : Row) (c : String) : Value :=
  match r.find? (fun p => decide (p.1 = c)) with
  | some p => p.2
  | none => Value.null

/-- Code-point lexicographic strict comparison on character lists. -/
def lexLt : List Char → List Char → Bool
  | [], [] => false
  | [], _ :: _ => true
  | _ :: _, [] => false
  | a :: as, b :: bs => if a < b then true else if a = b then lexLt as bs else false

/-- Strict string comparison: `strLt a b` holds when `a` is below `b` in code-point lexicographic
order.  This is the raw string ordering the dataframe library applies to
`>` comparisons on string columns. -/
def strLt (a b : String) : Bool := lexLt a.data b.data

/-- Containment check: `occursIn sub l` holds when the character list `sub` occurs contiguously in `l`. -/
def occursIn (sub : List Char) : List Char → Bool
  | [] => sub.isEmpty
  | c :: rest => sub.isPrefixOf (c :: rest) || occursIn sub rest

/-- Substring containment on strings (`col(...).contains(...)`). -/
def strContainsSub (s sub : String) : Bool := occursIn sub.data s.data

/-- Modelled from the spec (§6): numeric parse-on-use of a CSV value.
Missing/null or non-numeric values parse to `none`.  The analyses only sum
integer count columns, so the numeric kind is `Int`. -/
def parseNum (v : Value) : Option Int :=
  match v with
  | .null => none
  | .int n => some n
  | .str s =>
    match s.data with
    | [] => none
    | c :: rest =>
      if c = '-' then
        if rest.isEmpty then none else (parseDigits rest 0).map (fun n => -(n : Int))
      else (parseDigits (c :: rest) 0).map (fun n => (n : Int))
where
  parseDigits : List Char → Nat → Option Nat
    | [], acc => some acc
    | c :: rest, acc =>
      if c.isDigit then parseDigits rest (acc * 10 + (c.toNat - 48)) else none

/-- Predicate `col == v` (null/missing never satisfies it). -/
def eqPred (c v : String) (r : Row) : Bool := getV r c == Value.str v

/-- Predicate `col != v` (null/missing never satisfies it: the engine's
three-valued comparison is collapsed to "is true"). -/
def nePred (c v : String) (r : Row) : Bool :=
  match getV r c with
  | .str s => decide (s ≠ v)
  | _ => false

/-- Predicate `col.contains(sub)` (null/missing never satisfies it). -/
def containsPred (c sub : String) (r : Row) : Bool :=
  match getV r c with
  | .str s => strContainsSub s sub
  | _ => false

/-- Predicate `col > v` on raw strings: lexicographic, not numeric
(null/missing never satisfies it). -/
def gtStrPred (c v : String) (r : Row) : Bool :=
  match getV r c with
  | .str s => strLt v s
  | _ => false

/-- Predicate `~col.isin(vs)` (null/missing never satisfies it). -/
def notInPred (c : String) (vs : List String) (r : Row) : Bool :=
  match getV r c with
  | .str s => !(vs.contains s)
  | _ => false

/-- Predicate `col.isin(vs)` over collected values (null never satisfies it). -/
def inValsPred (c : String) (vs : List Value) (r : Row) : Bool :=
  match getV r c with
  | .null => false
  | v => vs.contains v

/-- The `filter` operator: keep the rows satisfying the predicate, in input order. -/
def filterOp (t : Table) (p : Row → Bool) : Table := t.filter p

/-- The `project`/`select` operator: keep the listed columns, in listed order. -/
def projectRow (cols : List String) (r : Row) : Row :=
  cols.map (fun c => (c, getV r c))

/-- Drop the entries of one column from a row. -/
def removeCol (r : Row) (c : String) : Row := r.filter (fun p => decide (p.1 ≠ c))

/-- Join key match: byte equality of key values; a null key matches nothing. -/
def joinMatch (key : String) (lr rr : Row) : Bool :=
  match getV lr key with
  | .null => false
  | v => v == getV rr key

/-- Inner equi-join on one key column: for each left row, one output row per
matching right row; the key column is not duplicated.  Unmatched rows drop. -/
def joinOn (l r : Table) (key : String) : Table :=
  l.flatMap (fun lr => (r.filter (joinMatch key lr)).map (fun rr => lr ++ removeCol rr key))

/-- First-seen deduplication, with an accumulator of already-seen elements. -/
def dedupAux {α : Type} [DecidableEq α] (seen : List α) : List α → List α
  | [] => []
  | a :: as => if a ∈ seen then dedupAux seen as else a :: dedupAux (a :: seen) as

/-- First-seen deduplication: keeps the first occurrence of each element, in
first-seen order (`distinct`, and the key emission order of `groupBy`). -/
def dedupF {α : Type} [DecidableEq α] (l : List α) : List α := dedupAux [] l

/-- The `groupBy(key).count()` operator: one row per distinct key value, in first-seen
order, with the partition size as an integer `cnt` column. -/
def groupByCount (t : Table) (key cnt : String) : Table :=
  (dedupF (t.map (fun r => getV r key))).map (fun v =>
    [(key, v), (cnt, Value.int (t.countP (fun r => getV r key == v)))])

/-- The `groupBy(k1, k2).count()` operator: the two-key variant used by analysis 5. -/
def groupByCount2 (t : Table) (k1 k2 cnt : String) : Table :=
  (dedupF (t.map (fun r => (getV r k1, getV r k2)))).map (fun v =>
    [(k1, v.1), (k2, v.2),
     (cnt, Value.int (t.countP (fun r => (getV r k1, getV r k2) == v)))])

/-- Fail-fast effectful map: the `Except` analogue of `List.map`, stopping at
the first error (an operator failure is fatal to the analysis). -/
def mapE {α β : Type} (f : α → Except String β) : List α → Except String (List β)
  | [] => Except.ok []
  | a :: as =>
    match f a with
    | Except.error e => Except.error e
    | Except.ok b =>
      match mapE f as with
      | Except.error e => Except.error e
      | Except.ok bs => Except.ok (b :: bs)

/-- Reading one summand of a `sum` aggregate: a missing or non-numeric value
is a fatal `TypeError` for that row. -/
def sumCell (sumCol : String) (r : Row) : Except String Int :=
  match parseNum (getV r sumCol) with
  | some n => Except.ok n
  | none => Except.error "TypeError"

/-- Modelled from the spec (§4.1 `groupByAggregate`, `sum` aggregate): one row
per distinct key with the numeric sum of `sumCol` over the partition; a
missing or non-numeric value is a fatal `TypeError`. -/
def groupBySum (t : Table) (key sumCol agg : String) : Except String Table :=
  mapE (fun v =>
      match mapE (sumCell sumCol) (t.filter (fun r => getV r key == v)) with
      | Except.error e => Except.error e
      | Except.ok ns => Except.ok [(key, v), (agg, Value.int (ns.foldr (· + ·) 0))])
    (dedupF (t.map (fun r => getV r key)))

/-- Deriving one row of `withColumn(newC, col(a) + col(b))`: the numeric sum
of the two parsed operand columns, replacing any existing column `newC`; a
missing or non-numeric operand is a fatal `TypeError`. -/
def addCols (newC a b : String) (r : Row) : Except String Row :=
  match parseNum (getV r a), parseNum (getV r b) with
  | some x, some y => Except.ok (removeCol r newC ++ [(newC, Value.int (x + y))])
  | _, _ => Except.error "TypeError"

/-- Modelled from the spec (§4.1, §6): `withColumn(newC, col(a) + col(b))`
applied to every row, failing fast on the first `TypeError`. -/
def withColumnAdd (t : Table) (newC a b : String) : Except String Table :=
  mapE (addCols newC a b) t

/-- The descending comparison used by `orderBy(col, desc)`, on index-decorated
rows: larger keys first, ties in original-position order.  The explicit
position tie-break is the determinism contract of the spec (§9). -/
def rowLeDesc {V : Type} [LinearOrder V] (key : Row → V) (p q : Nat × Row) : Prop :=
  key q.2 < key p.2 ∨ (key p.2 = key q.2 ∧ p.1 ≤ q.1)

instance {V : Type} [LinearOrder V] (key : Row → V) : DecidableRel (rowLeDesc key) :=
  fun _ _ => inferInstanceAs (Decidable (_ ∨ _))

/-- The index-decorated stable descending sort underlying `orderBy`. -/
def sortedEnum {V : Type} [LinearOrder V] (t : Table) (key : Row → V) : List (Nat × Row) :=
  (t.enum).insertionSort (rowLeDesc key)

/-- The `orderBy(key, descending)` operator: total, stable descending sort; rows with equal
keys keep their relative input order.  The comparison follows the column's
value kind through the `key` extractor. -/
def orderByDesc {V : Type} [LinearOrder V] (t : Table) (key : Row → V) : Table :=
  (sortedEnum t key).map Prod.snd

/-- The `limit(n)` operator: the first `n` rows (all rows if fewer); no sorting. -/
def limitOp (t : Table) (n : Nat) : Table := t.take n

/-- Row at position `i` (the empty row when out of range). -/
def rowAt (t : Table) (i : Nat) : Row := t.getD i []

/-- Window precedence: `rankPrec t pk ov j i` holds when, in the window ordering of `rank` (partition `pk`,
order column `ov` descending, ties by original position), row `j` comes
strictly before row `i` within the same partition. -/
def rankPrec {K V : Type} [DecidableEq K] [LinearOrder V]
    (t : Table) (pk : Row → K) (ov : Row → V) (j i : Nat) : Prop :=
  pk (rowAt t j) = pk (rowAt t i) ∧
    (ov (rowAt t i) < ov (rowAt t j) ∨ (ov (rowAt t j) = ov (rowAt t i) ∧ j < i))

instance {K V : Type} [DecidableEq K] [LinearOrder V]
    (t : Table) (pk : Row → K) (ov : Row → V) (j i : Nat) :
    Decidable (rankPrec t pk ov j i) :=
  inferInstanceAs (Decidable (_ ∧ _))

/-- The 1-based rank of row `i`: one more than the number of rows of its
partition that the window ordering places strictly before it. -/
def rankNat {K V : Type} [DecidableEq K] [LinearOrder V]
    (t : Table) (pk : Row → K) (ov : Row → V) (i : Nat) : Nat :=
  1 + ((Finset.range t.length).filter (fun j => rankPrec t pk ov j i)).card

/-- Modelled from the spec (§4.1 `rank`, §9): `row_number` over a window —
adds a 1-based in-partition rank column `rn`, removing no rows, ordered by
`ov` descending with ties broken by original row position (the spec's
deterministic strengthening of the library's unspecified tie order). -/
def rankTable {K V : Type} [DecidableEq K] [LinearOrder V]
    (t : Table) (pk : Row → K) (ov : Row → V) (rn : String) : Table :=
  (List.range t.length).map (fun i => rowAt t i ++ [(rn, Value.int (rankNat t pk ov i))])

/-- The partition of row `i`: the positions holding the same partition key. -/
def rankPart {K : Type} [DecidableEq K] (t : Table) (pk : Row → K) (i : Nat) : Finset Nat :=
  (Finset.range t.length).filter (fun j => pk (rowAt t j) = pk (rowAt t i))

/-- The sort key of the window ordering of `rank`, packaged as a
lexicographic pair: order column descending (dual order), then original
position ascending.  `rankPrec` within one partition is exactly `<` on this
key. -/
def rankKey {V : Type} [LinearOrder V] (t : Table) (ov : Row → V) (i : Nat) :
    (Vᵒᵈ) ×ₗ Nat :=
  toLex (OrderDual.toDual (ov (rowAt t i)), i)

/-- The `dropna(subset)` operator: remove rows where any listed column is null/missing. -/
def dropNulls (t : Table) (cols : List String) : Table :=
  filterOp t (fun r => cols.all (fun c => !(getV r c == Value.null)))

/-- Integer reading of a count/aggregate column (such columns always hold
`int` values; any other value reads as 0). -/
def cntKey (c : String) (r : Row) : Int :=
  match getV r c with
  | .int n => n
  | _ => 0

/-- Analysis 1: persons with injury severity KILLED and gender MALE; the
result is the row count. -/
def analysis1 (primary : Table) : Nat :=
  (filterOp primary (fun r =>
    eqPred "PRSN_INJRY_SEV_ID" "KILLED" r && eqPred "PRSN_GNDR_ID" "MALE" r)).length

/-- Analysis 2: units with body style MOTORCYCLE; the result is the row
count. -/
def analysis2 (units : Table) : Nat :=
  (filterOp units (eqPred "VEH_BODY_STYL_ID" "MOTORCYCLE")).length

/-- The intermediate table of analysis 3: female rows grouped by driver
license state, counted, ordered by count descending, limited to one row. -/
def analysis3Df (primary : Table) : Table :=
  limitOp
    (orderByDesc
      (groupByCount (filterOp primary (eqPred "PRSN_GNDR_ID" "FEMALE"))
        "DRVR_LIC_STATE_ID" "cnt")
      (cntKey "cnt"))
    1

/-- Analysis 3: the state with the highest number of female involvements.
The source extracts `collect()[0]` from the one-row table; an empty table
makes that extraction fail with an index error, modelled as `none`. -/
def analysis3 (primary : Table) : Option Value :=
  ((analysis3Df primary).map (fun r => getV r "DRVR_LIC_STATE_ID")).head?

/-- The aggregate key of analysis 4. -/
def aggKey4 : Row → Int := cntKey "AGG_TOTAL_INJ_DEATH_CNT"

/-- The pure tail of analysis 4's pipeline after the aggregation: order by
the aggregate descending, exclude the 'NA' make, rank (single partition,
aggregate descending), and keep ranks 5 to 15. -/
def analysis4Tail (g : Table) : Table :=
  filterOp
    (rankTable (filterOp (orderByDesc g aggKey4) (nePred "VEH_MAKE_ID" "NA"))
      (fun _ => ()) aggKey4 "rn")
    (fun r => decide (5 ≤ cntKey "rn" r) && decide (cntKey "rn" r ≤ 15))

/-- The intermediate table of analysis 4: per-unit injuries+deaths, summed by
make, ordered descending, 'NA' excluded, ranked, ranks 5..15 kept. -/
def analysis4Df (units : Table) : Except String Table := do
  let df ← withColumnAdd units "TOTAL_INJ_DEATH_CNT" "TOT_INJRY_CNT" "DEATH_CNT"
  let g ← groupBySum df "VEH_MAKE_ID" "TOTAL_INJ_DEATH_CNT" "AGG_TOTAL_INJ_DEATH_CNT"
  Except.ok (analysis4Tail g)

/-- Analysis 4: the makes ranked 5th to 15th by total injuries plus deaths. -/
def analysis4 (units : Table) : Except String (List Value) :=
  (analysis4Df units).map (fun g => g.map (fun r => getV r "VEH_MAKE_ID"))

/-- Analysis 5: top ethnicity per body style (rank 1 within each body-style
partition, 'NA' body styles excluded). -/
def analysis5 (primary units : Table) : List (Value × Value) :=
  let df := (joinOn primary units "CRASH_ID").map
    (projectRow ["PRSN_ETHNICITY_ID", "VEH_BODY_STYL_ID"])
  let g := groupByCount2 df "VEH_BODY_STYL_ID" "PRSN_ETHNICITY_ID" "count"
  let g := rankTable g (fun r => getV r "VEH_BODY_STYL_ID") (cntKey "count") "rn"
  let g := filterOp g (fun r =>
    (getV r "rn" == Value.int 1) && notInPred "VEH_BODY_STYL_ID" ["NA"] r)
  g.map (fun r => (getV r "VEH_BODY_STYL_ID", getV r "PRSN_ETHNICITY_ID"))

/-- Analysis 6: top-5 driver zip codes among alcohol-involved crashes. -/
def analysis6 (primary units : Table) : List Value :=
  let df := (joinOn primary units "CRASH_ID").map
    (projectRow ["CONTRIB_FACTR_1_ID", "CONTRIB_FACTR_2_ID", "DRVR_ZIP"])
  let df := filterOp df (fun r =>
    containsPred "CONTRIB_FACTR_1_ID" "ALCOHOL" r ||
      containsPred "CONTRIB_FACTR_2_ID" "ALCOHOL" r)
  let df := dropNulls df ["DRVR_ZIP"]
  let g := limitOp (orderByDesc (groupByCount df "DRVR_ZIP" "count") (cntKey "count")) 5
  g.map (fun r => getV r "DRVR_ZIP")

/-- One damage-scale branch of analysis 7: `col > 'DAMAGED 4'` (raw string
comparison) and `~col.isin('INVALID VALUE', 'NA', 'NO DAMAGE')`. -/
def dmgBranch (c : String) (r : Row) : Bool :=
  gtStrPred c "DAMAGED 4" r && notInPred c ["INVALID VALUE", "NA", "NO DAMAGE"] r

/-- The rows of analysis 7 that pass all three filters: units joined with
damages, damaged property containing NONE, one damage-scale branch true, and
proof of liability insurance. -/
def analysis7Filtered (units damages : Table) : Table :=
  filterOp
    (filterOp
      (filterOp (joinOn units damages "CRASH_ID")
        (containsPred "DAMAGED_PROPERTY" "NONE"))
      (fun r => dmgBranch "VEH_DMAG_SCL_2_ID" r || dmgBranch "VEH_DMAG_SCL_1_ID" r))
    (eqPred "FIN_RESP_TYPE_ID" "PROOF OF LIABILITY INSURANCE")

/-- Analysis 7: the number of distinct CRASH_ID values among the rows that
pass all three filters. -/
def analysis7 (units damages : Table) : Nat :=
  (dedupF ((analysis7Filtered units damages).map (fun r => getV r "CRASH_ID"))).length

/-- The top-`n` most frequent non-'NA' values of column `c` (grouped, ordered
by count descending, 'NA' filtered, limited), as collected values. -/
def topFreq (t : Table) (c : String) (n : Nat) : List Value :=
  (limitOp (filterOp (orderByDesc (groupByCount t c "count") (cntKey "count")) (nePred c "NA")) n).map
    (fun r => getV r c)

/-- The join/filter chain of analysis 8, parametrised by the candidate colour
and state sets. -/
def analysis8Chain (units charges primary : Table) (colours states : List Value) : List Value :=
  let df := filterOp units (fun r =>
    inValsPred "VEH_COLOR_ID" colours r && inValsPred "VEH_LIC_STATE_ID" states r)
  let df := filterOp (joinOn df charges "CRASH_ID") (containsPred "CHARGE" "SPEED")
  let df := filterOp (joinOn df primary "CRASH_ID") (containsPred "DRVR_LIC_TYPE_ID" "DRIVER")
  (limitOp (orderByDesc (groupByCount df "VEH_MAKE_ID" "count") (cntKey "count")) 5).map
    (fun r => getV r "VEH_MAKE_ID")

/-- Analysis 8: top-5 makes under the speeding/licensing/colour/state
constraints.  The top-10 colour and top-25 state candidate sets come from the
Units table alone, before the join/filter chain. -/
def analysis8 (units charges primary : Table) : List Value :=
  analysis8Chain units charges primary
    (topFreq units "VEH_COLOR_ID" 10) (topFreq units "VEH_LIC_STATE_ID" 25)

/-- Modelled from the spec (§8, Scenario — Analysis 8): the alternative order
of operations, computing the candidate colour/state sets only after the
join/filter chain has run, for comparison with the implemented order. -/
def analysis8AltOrder (units charges primary : Table) : List Value :=
  let df := filterOp (joinOn units charges "CRASH_ID") (containsPred "CHARGE" "SPEED")
  let df := filterOp (joinOn df primary "CRASH_ID") (containsPred "DRVR_LIC_TYPE_ID" "DRIVER")
  let colours := topFreq df "VEH_COLOR_ID" 10
  let states := topFreq df "VEH_LIC_STATE_ID" 25
  let df := filterOp df (fun r =>
    inValsPred "VEH_COLOR_ID" colours r && inValsPred "VEH_LIC_STATE_ID" states r)
  (limitOp (orderByDesc (groupByCount df "VEH_MAKE_ID" "count") (cntKey "count")) 5).map
    (fun r => getV r "VEH_MAKE_ID")

/-- Modelled from the spec (§4.2 pipeline 3): the state whose female-row
count is highest, ties resolved toward the first-seen key among the keys of
equal maximal count. -/
def specTopState3 (primary : Table) : Option Value :=
  let fem := filterOp primary (eqPred "PRSN_GNDR_ID" "FEMALE")
  let ks := dedupF (fem.map (fun r => getV r "DRVR_LIC_STATE_ID"))
  let cnt : Value → Int := fun v => (fem.countP (fun r => getV r "DRVR_LIC_STATE_ID" == v) : Int)
  let mx := (ks.map cnt).foldr max 0
  ks.find? (fun v => cnt v == mx)

/-- The `!= na` test applied directly to a value: what `nePred` computes on
the looked-up cell. -/
def keptKey (na : String) (v : Value) : Bool :=
  match v with
  | .str s => decide (s ≠ na)
  | _ => false

/-- The row produced by `withColumnAdd` when both operands parse (with
defaulted parses, so it is a total function of the row). -/
def addRow (newC a b : String) (r : Row) : Row :=
  removeCol r newC ++
    [(newC, Value.int ((parseNum (getV r a)).getD 0 + (parseNum (getV r b)).getD 0))]

/-- The group row of analysis 4 for make value `v` under a sum function: the
shape of the rows of `groupBySum df "VEH_MAKE_ID" … "AGG_TOTAL_INJ_DEATH_CNT"`. -/
def g4Row (s : Value → Int) (v : Value) : Row :=
  [("VEH_MAKE_ID", v), ("AGG_TOTAL_INJ_DEATH_CNT", Value.int (s v))]

/-- Units rows for the analysis 4 scenario: four distinct makes (and no
'NA'), with numeric injury and death counts. -/
def units4 : Table :=
  [[("VEH_MAKE_ID", Value.str "FORD"), ("TOT_INJRY_CNT", Value.str "2"),
    ("DEATH_CNT", Value.str "1")],
   [("VEH_MAKE_ID", Value.str "KIA"), ("TOT_INJRY_CNT", Value.str "1"),
    ("DEATH_CNT", Value.str "0")],
   [("VEH_MAKE_ID", Value.str "BMW"), ("TOT_INJRY_CNT", Value.str "0"),
    ("DEATH_CNT", Value.str "0")],
   [("VEH_MAKE_ID", Value.str "AUDI"), ("TOT_INJRY_CNT", Value.str "3"),
    ("DEATH_CNT", Value.str "2")],
   [("VEH_MAKE_ID", Value.str "FORD"), ("TOT_INJRY_CNT", Value.str "1"),
    ("DEATH_CNT", Value.str "0")]]

/-- Units rows for the analysis 8 order-of-operations scenario: eleven
distinct colours (one row each), so the 11th first-seen colour "C11" falls
outside the top-10 colour set of the full Units table, although its crash is
the one with a speeding charge and a licensed driver besides crash 2. -/
def units8 : Table :=
  [[("CRASH_ID", Value.str "2"), ("VEH_COLOR_ID", Value.str "C01"),
    ("VEH_LIC_STATE_ID", Value.str "TX"), ("VEH_MAKE_ID", Value.str "FORD")],
   [("CRASH_ID", Value.str "3"), ("VEH_COLOR_ID", Value.str "C02"),
    ("VEH_LIC_STATE_ID", Value.str "TX"), ("VEH_MAKE_ID", Value.str "X")],
   [("CRASH_ID", Value.str "4"), ("VEH_COLOR_ID", Value.str "C03"),
    ("VEH_LIC_STATE_ID", Value.str "TX"), ("VEH_MAKE_ID", Value.str "X")],
   [("CRASH_ID", Value.str "5"), ("VEH_COLOR_ID", Value.str "C04"),
    ("VEH_LIC_STATE_ID", Value.str "TX"), ("VEH_MAKE_ID", Value.str "X")],
   [("CRASH_ID", Value.str "6"), ("VEH_COLOR_ID", Value.str "C05"),
    ("VEH_LIC_STATE_ID", Value.str "TX"), ("VEH_MAKE_ID", Value.str "X")],
   [("CRASH_ID", Value.str "7"), ("VEH_COLOR_ID", Value.str "C06"),
    ("VEH_LIC_STATE_ID", Value.str "TX"), ("VEH_MAKE_ID", Value.str "X")],
   [("CRASH_ID", Value.str "8"), ("VEH_COLOR_ID", Value.str "C07"),
    ("VEH_LIC_STATE_ID", Value.str "TX"), ("VEH_MAKE_ID", Value.str "X")],
   [("CRASH_ID", Value.str "9"), ("VEH_COLOR_ID", Value.str "C08"),
    ("VEH_LIC_STATE_ID", Value.str "TX"), ("VEH_MAKE_ID", Value.str "X")],
   [("CRASH_ID", Value.str "10"), ("VEH_COLOR_ID", Value.str "C09"),
    ("VEH_LIC_STATE_ID", Value.str "TX"), ("VEH_MAKE_ID", Value.str "X")],
   [("CRASH_ID", Value.str "11"), ("VEH_COLOR_ID", Value.str "C10"),
    ("VEH_LIC_STATE_ID", Value.str "TX"), ("VEH_MAKE_ID", Value.str "X")],
   [("CRASH_ID", Value.str "1"), ("VEH_COLOR_ID", Value.str "C11"),
    ("VEH_LIC_STATE_ID", Value.str "TX"), ("VEH_MAKE_ID", Value.str "KIA")]]

/-- Charges rows for the analysis 8 scenario: crashes 1 and 2 have speeding
charges. -/
def charges8 : Table :=
  [[("CRASH_ID", Value.str "1"), ("CHARGE", Value.str "SPEEDING")],
   [("CRASH_ID", Value.str "2"), ("CHARGE", Value.str "SPEEDING")]]

/-- Primary rows for the analysis 8 scenario: crashes 1 and 2 have licensed
drivers. -/
def primary8 : Table :=
  [[("CRASH_ID", Value.str "1"), ("DRVR_LIC_TYPE_ID", Value.str "DRIVER LICENSE")],
   [("CRASH_ID", Value.str "2"), ("DRVR_LIC_TYPE_ID", Value.str "DRIVER LICENSE")]]

/-- The group row of analysis 3 for key value `v` under a count function:
the shape of the rows of `groupByCount fem "DRVR_LIC_STATE_ID" "cnt"`. -/
def g3Row (cnt : Value → Int) (v : Value) : Row :=
  [("DRVR_LIC_STATE_ID", v), ("cnt", Value.int (cnt v))]

/-- Primary rows of the analysis 3 scenario: female rows with states
TX, TX, OK. -/
def primary3 : Table :=
  [[("PRSN_GNDR_ID", Value.str "FEMALE"), ("DRVR_LIC_STATE_ID", Value.str "TX")],
   [("PRSN_GNDR_ID", Value.str "FEMALE"), ("DRVR_LIC_STATE_ID", Value.str "TX")],
   [("PRSN_GNDR_ID", Value.str "FEMALE"), ("DRVR_LIC_STATE_ID", Value.str "OK")]]

/-- Units rows for the analysis 7 damage-scale scenario: three crashes, all
with proof of liability insurance. -/
def units7 : Table :=
  [[("CRASH_ID", Value.str "1"), ("FIN_RESP_TYPE_ID", Value.str "PROOF OF LIABILITY INSURANCE")],
   [("CRASH_ID", Value.str "2"), ("FIN_RESP_TYPE_ID", Value.str "PROOF OF LIABILITY INSURANCE")],
   [("CRASH_ID", Value.str "3"), ("FIN_RESP_TYPE_ID", Value.str "PROOF OF LIABILITY INSURANCE")]]

/-- Damages rows for the analysis 7 scenario: crashes 1 and 2 are identical
except that `VEH_DMAG_SCL_2_ID` is "DAMAGED 10" versus "DAMAGED 4"; crash 3
carries "DAMAGED 5". -/
def damages7 : Table :=
  [[("CRASH_ID", Value.str "1"), ("DAMAGED_PROPERTY", Value.str "NONE"),
    ("VEH_DMAG_SCL_1_ID", Value.str "NA"), ("VEH_DMAG_SCL_2_ID", Value.str "DAMAGED 10")],
   [("CRASH_ID", Value.str "2"), ("DAMAGED_PROPERTY", Value.str "NONE"),
    ("VEH_DMAG_SCL_1_ID", Value.str "NA"), ("VEH_DMAG_SCL_2_ID", Value.str "DAMAGED 4")],
   [("CRASH_ID", Value.str "3"), ("DAMAGED_PROPERTY", Value.str "NONE"),
    ("VEH_DMAG_SCL_1_ID", Value.str "NA"), ("VEH_DMAG_SCL_2_ID", Value.str "DAMAGED 5")]]

/-! ## General lemmas about the operators -/

theorem mem_dedupAux {α : Type} [DecidableEq α] (seen l : List α) (x : α) :
    x ∈ dedupAux seen l ↔ x ∈ l ∧ x ∉ seen := by
  induction l generalizing seen with
  | nil => simp [dedupAux]
  | cons a as ih =>
    simp only [dedupAux]
    by_cases h : a ∈ seen
    · rw [if_pos h, ih seen]
      constructor
      · rintro ⟨hx, hs⟩
        exact ⟨List.mem_cons_of_mem a hx, hs⟩
      · rintro ⟨hx, hs⟩
        rcases List.mem_cons.mp hx with rfl | hx'
        · exact absurd h hs
        · exact ⟨hx', hs⟩
    · rw [if_neg h]
      constructor
      · intro hx
        rcases List.mem_cons.mp hx with rfl | hx'
        · exact ⟨List.mem_cons_self _ _, h⟩
        · obtain ⟨h1, h2⟩ := (ih (a :: seen)).mp hx'
          exact ⟨List.mem_cons_of_mem a h1, fun hs => h2 (List.mem_cons_of_mem a hs)⟩
      · rintro ⟨hx, hs⟩
        rcases List.mem_cons.mp hx with rfl | hx'
        · exact List.mem_cons_self x _
        · by_cases hxa : x = a
          · subst hxa
            exact List.mem_cons_self x _
          · refine List.mem_cons_of_mem a ((ih (a :: seen)).mpr ⟨hx', ?_⟩)
            intro hmem
            rcases List.mem_cons.mp hmem with h1 | h1
            · exact hxa h1
            · exact hs h1

theorem nodup_dedupAux {α : Type} [DecidableEq α] (seen l : List α) :
    (dedupAux seen l).Nodup := by
  induction l generalizing seen with
  | nil => exact List.nodup_nil
  | cons a as ih =>
    simp only [dedupAux]
    by_cases h : a ∈ seen
    · rw [if_pos h]; exact ih seen
    · rw [if_neg h]
      refine List.nodup_cons.mpr ⟨fun hmem => ?_, ih (a :: seen)⟩
      exact ((mem_dedupAux _ _ _).mp hmem).2 (List.mem_cons_self a seen)

theorem mem_dedupF {α : Type} [DecidableEq α] (l : List α) (x : α) :
    x ∈ dedupF l ↔ x ∈ l := by
  simp [dedupF, mem_dedupAux]

theorem nodup_dedupF {α : Type} [DecidableEq α] (l : List α) : (dedupF l).Nodup :=
  nodup_dedupAux [] l

theorem length_dedupF_eq_card {α : Type} [DecidableEq α] (l : List α) :
    (dedupF l).length = l.toFinset.card := by
  have h1 : (dedupF l).toFinset = l.toFinset := by
    ext x; simp [List.mem_toFinset, mem_dedupF]
  rw [← h1, List.toFinset_card_of_nodup (nodup_dedupF l)]

theorem mapE_ok_mem {α β : Type} (f : α → Except String β) (l : List α) (bs : List β)
    (h : mapE f l = Except.ok bs) : ∀ a ∈ l, ∃ b, f a = Except.ok b := by
  induction l generalizing bs with
  | nil => intro a ha; exact absurd ha (List.not_mem_nil a)
  | cons x xs ih =>
    intro a ha
    cases hf : f x with
    | error e => simp [mapE, hf] at h
    | ok b =>
      cases hm : mapE f xs with
      | error e => simp [mapE, hf, hm] at h
      | ok bs' =>
        rcases List.mem_cons.mp ha with rfl | ha'
        · exact ⟨b, hf⟩
        · exact ih bs' hm a ha'

theorem mapE_error_of_mem {α β : Type} (f : α → Except String β) (l : List α) (a : α)
    (ha : a ∈ l) (hbad : ∀ b, f a ≠ Except.ok b) :
    ∃ e, mapE f l = Except.error e := by
  cases h : mapE f l with
  | error e => exact ⟨e, rfl⟩
  | ok bs =>
    obtain ⟨b, hb⟩ := mapE_ok_mem f l bs h a ha
    exact absurd hb (hbad b)

theorem mapE_ok_of_forall {α β : Type} (f : α → Except String β) (g : α → β) (l : List α)
    (h : ∀ a ∈ l, f a = Except.ok (g a)) : mapE f l = Except.ok (l.map g) := by
  induction l with
  | nil => rfl
  | cons x xs ih =>
    have hx := h x (List.mem_cons_self x xs)
    have hxs := ih (fun a ha => h a (List.mem_cons_of_mem x ha))
    simp [mapE, hx, hxs]

/-! ## C8 — filter: satisfaction, order preservation, idempotence -/

/-- C8: every row of `filter(T, p)` satisfies `p`, the kept rows stay in
input order (the result is a sublist of the input), and filter is
idempotent: `filter(filter(T, p), p) = filter(T, p)`. -/
theorem filterOp_spec (t : Table) (p : Row → Bool) :
    (∀ r ∈ filterOp t p, p r = true) ∧
    (filterOp t p).Sublist t ∧
    filterOp (filterOp t p) p = filterOp t p := by
  refine ⟨fun r hr => (List.mem_filter.mp hr).2, List.filter_sublist t, ?_⟩
  unfold filterOp
  rw [List.filter_filter]
  simp

/-- Witness for C8 at a concrete table and predicate. -/
theorem filterOp_spec_witness :
    eqPred "g" "a" [("g", Value.str "a")] = true ∧
    filterOp (filterOp [[("g", Value.str "a")], [("g", Value.str "b")]] (eqPred "g" "a"))
        (eqPred "g" "a") =
      filterOp [[("g", Value.str "a")], [("g", Value.str "b")]] (eqPred "g" "a") :=
  ⟨(filterOp_spec [[("g", Value.str "a")], [("g", Value.str "b")]] (eqPred "g" "a")).1
      [("g", Value.str "a")] (by decide),
   (filterOp_spec [[("g", Value.str "a")], [("g", Value.str "b")]] (eqPred "g" "a")).2.2⟩

/-! ## C9 — analysis 3 on a table without female rows -/

/-- C9: when Primary has no FEMALE row, analysis 3 produces no value: the
single-row extraction (`collect()[0]` in the source) hits an empty result
table and fails with an index error, modelled as `none` — not an empty or
sentinel result. -/
theorem analysis3_no_female (primary : Table)
    (h : ∀ r ∈ primary, eqPred "PRSN_GNDR_ID" "FEMALE" r = false) :
    analysis3 primary = none := by
  have h0 : filterOp primary (eqPred "PRSN_GNDR_ID" "FEMALE") = [] :=
    List.filter_eq_nil_iff.mpr (fun a ha => by simp [h a ha])
  unfold analysis3 analysis3Df
  rw [h0]
  rfl

/-- Witness for C9: a primary table holding one MALE row. -/
theorem analysis3_no_female_witness :
    analysis3 [[("PRSN_GNDR_ID", Value.str "MALE"), ("DRVR_LIC_STATE_ID", Value.str "TX")]] =
      none :=
  analysis3_no_female _ (by decide)

/-! ## C10 — null values never satisfy filter predicates -/

/-- C10: a row whose tested column is null (or missing) never satisfies a
filter predicate — equality, inequality, substring containment, string
comparison and negated membership all evaluate to not-true, so such rows are
silently dropped.  In particular the rows surviving analysis 7's
`contains NONE` filter have non-null `DAMAGED_PROPERTY`, and the rows
surviving analysis 4's `VEH_MAKE_ID != 'NA'` filter have non-null make. -/
theorem null_never_satisfies (c v sub : String) (r : Row) (units damages u : Table)
    (h : getV r c = Value.null) :
    eqPred c v r = false ∧ nePred c v r = false ∧ containsPred c sub r = false ∧
    gtStrPred c v r = false ∧ notInPred c [v] r = false ∧
    (∀ r' ∈ analysis7Filtered units damages, getV r' "DAMAGED_PROPERTY" ≠ Value.null) ∧
    (∀ r' ∈ filterOp u (nePred "VEH_MAKE_ID" "NA"), getV r' "VEH_MAKE_ID" ≠ Value.null) := by
  refine ⟨by simp [eqPred, h], by simp [nePred, h], by simp [containsPred, h],
    by simp [gtStrPred, h], by simp [notInPred, h], ?_, ?_⟩
  · intro r' hr'
    have h1 := (List.mem_filter.mp (List.mem_filter.mp (List.mem_filter.mp hr').1).1).2
    intro hnull
    simp [containsPred, hnull] at h1
  · intro r' hr'
    have h1 := (List.mem_filter.mp hr').2
    intro hnull
    simp [nePred, hnull] at h1

/-- Witness for C10 at a concrete row with a null column and concrete
tables. -/
theorem null_never_satisfies_witness :
    eqPred "DAMAGED_PROPERTY" "NONE" [("DAMAGED_PROPERTY", Value.null)] = false ∧
    getV [("CRASH_ID", Value.str "3"), ("FIN_RESP_TYPE_ID", Value.str "PROOF OF LIABILITY INSURANCE"),
          ("DAMAGED_PROPERTY", Value.str "NONE"), ("VEH_DMAG_SCL_1_ID", Value.str "NA"),
          ("VEH_DMAG_SCL_2_ID", Value.str "DAMAGED 5")] "DAMAGED_PROPERTY" ≠ Value.null :=
  ⟨(null_never_satisfies "DAMAGED_PROPERTY" "NONE" "NONE" [("DAMAGED_PROPERTY", Value.null)]
      units7 damages7 [] (by decide)).1,
   (null_never_satisfies "DAMAGED_PROPERTY" "NONE" "NONE" [("DAMAGED_PROPERTY", Value.null)]
      units7 damages7 [] (by decide)).2.2.2.2.2.1 _ (by decide)⟩

/-! ## C1 — analysis 7: lexicographic damage-scale comparison -/

/-- C1: analysis 7 compares damage scales as raw strings, so "DAMAGED 10" is
*not* greater than "DAMAGED 4" (lexicographic, not numeric, ordering): in the
scenario tables, crashes 1 and 2 are identical except for that value and the
"DAMAGED 10" row does not pass the damage-scale branch, while crash 3 with
"DAMAGED 5" does; and for every pair of tables, the analysis returns the
number of distinct CRASH_ID values among the rows that pass all three
filters. -/
theorem analysis7_lexicographic :
    (∀ units damages, analysis7 units damages =
      ((analysis7Filtered units damages).map (fun r => getV r "CRASH_ID")).toFinset.card) ∧
    strLt "DAMAGED 4" "DAMAGED 10" = false ∧
    dmgBranch "VEH_DMAG_SCL_2_ID"
      [("CRASH_ID", Value.str "1"), ("FIN_RESP_TYPE_ID", Value.str "PROOF OF LIABILITY INSURANCE"),
       ("DAMAGED_PROPERTY", Value.str "NONE"), ("VEH_DMAG_SCL_1_ID", Value.str "NA"),
       ("VEH_DMAG_SCL_2_ID", Value.str "DAMAGED 10")] = false ∧
    (∀ r ∈ analysis7Filtered units7 damages7, getV r "CRASH_ID" ≠ Value.str "1") ∧
    analysis7 units7 damages7 = 1 := by
  refine ⟨fun units damages => length_dedupF_eq_card _, by decide, by decide, ?_, by decide⟩
  intro r hr
  have : analysis7Filtered units7 damages7 =
      [[("CRASH_ID", Value.str "3"),
        ("FIN_RESP_TYPE_ID", Value.str "PROOF OF LIABILITY INSURANCE"),
        ("DAMAGED_PROPERTY", Value.str "NONE"), ("VEH_DMAG_SCL_1_ID", Value.str "NA"),
        ("VEH_DMAG_SCL_2_ID", Value.str "DAMAGED 5")]] := by decide
  rw [this] at hr
  rcases List.mem_singleton.mp hr with rfl
  decide

/-- Witness for C1: the surviving scenario row (crash 3) is not crash 1. -/
theorem analysis7_lexicographic_witness :
    getV [("CRASH_ID", Value.str "3"),
          ("FIN_RESP_TYPE_ID", Value.str "PROOF OF LIABILITY INSURANCE"),
          ("DAMAGED_PROPERTY", Value.str "NONE"), ("VEH_DMAG_SCL_1_ID", Value.str "NA"),
          ("VEH_DMAG_SCL_2_ID", Value.str "DAMAGED 5")] "CRASH_ID" ≠ Value.str "1" :=
  analysis7_lexicographic.2.2.2.1 _ (by decide)

/-! ## C2 — sum aggregates fail on missing or non-numeric values -/

/-- C2: the sum aggregate raises a fatal `TypeError` when some row's summed
column value is missing or non-numeric, and analysis 4's sum of
injuries+deaths per make aborts (rather than skipping the row) when some
unit's count column is missing or non-numeric. -/
theorem groupBySum_typeError (t : Table) (key sumCol agg : String) (units : Table)
    (h1 : ∃ r ∈ t, parseNum (getV r sumCol) = none)
    (h2 : ∃ r ∈ units,
      parseNum (getV r "TOT_INJRY_CNT") = none ∨ parseNum (getV r "DEATH_CNT") = none) :
    (∃ e, groupBySum t key sumCol agg = Except.error e) ∧
    (∃ e, analysis4 units = Except.error e) := by
  obtain ⟨r1, hr1, hp1⟩ := h1
  obtain ⟨r2, hr2, hp2⟩ := h2
  constructor
  · have hk : getV r1 key ∈ dedupF (t.map (fun r => getV r key)) :=
      (mem_dedupF _ _).mpr (List.mem_map_of_mem (fun r => getV r key) hr1)
    apply mapE_error_of_mem _ _ (getV r1 key) hk
    intro b hb
    have hmem : r1 ∈ t.filter (fun r => getV r key == getV r1 key) :=
      List.mem_filter.mpr ⟨hr1, by simp⟩
    cases hinner : mapE (sumCell sumCol) (t.filter (fun r => getV r key == getV r1 key)) with
    | error e =>
      rw [hinner] at hb
      simp at hb
    | ok ns =>
      obtain ⟨m, hm⟩ := mapE_ok_mem _ _ _ hinner r1 hmem
      unfold sumCell at hm
      rw [hp1] at hm
      simp at hm
  · have hbad : ∀ b, addCols "TOTAL_INJ_DEATH_CNT" "TOT_INJRY_CNT" "DEATH_CNT" r2 ≠
        Except.ok b := by
      intro b hb
      unfold addCols at hb
      rcases hp2 with hp | hp
      · rw [hp] at hb
        simp at hb
      · cases hq : parseNum (getV r2 "TOT_INJRY_CNT") <;> rw [hq, hp] at hb <;> simp at hb
    obtain ⟨e, he⟩ := mapE_error_of_mem (addCols "TOTAL_INJ_DEATH_CNT" "TOT_INJRY_CNT" "DEATH_CNT")
      units r2 hr2 hbad
    refine ⟨e, ?_⟩
    have hw : withColumnAdd units "TOTAL_INJ_DEATH_CNT" "TOT_INJRY_CNT" "DEATH_CNT" =
        Except.error e := he
    simp [analysis4, analysis4Df, hw, Except.map, Bind.bind, Except.bind]

/-- Witness for C2: a one-row table with a non-numeric sum column, and a
one-row units table missing the DEATH_CNT column. -/
theorem groupBySum_typeError_witness :
    (∃ e, groupBySum [[("k", Value.str "a"), ("s", Value.str "x")]] "k" "s" "agg" =
      Except.error e) ∧
    (∃ e, analysis4 [[("VEH_MAKE_ID", Value.str "FORD"), ("TOT_INJRY_CNT", Value.str "1")]] =
      Except.error e) :=
  groupBySum_typeError [[("k", Value.str "a"), ("s", Value.str "x")]] "k" "s" "agg"
    [[("VEH_MAKE_ID", Value.str "FORD"), ("TOT_INJRY_CNT", Value.str "1")]]
    ⟨[("k", Value.str "a"), ("s", Value.str "x")], by decide, by decide⟩
    ⟨[("VEH_MAKE_ID", Value.str "FORD"), ("TOT_INJRY_CNT", Value.str "1")], by decide,
      Or.inr (by decide)⟩

/-! ## C4 — orderBy is a stable descending sort; limit takes a prefix -/

theorem rowLeDesc_trans {V : Type} [LinearOrder V] (key : Row → V) :
    ∀ a b c, rowLeDesc key a b → rowLeDesc key b c → rowLeDesc key a c := by
  intro a b c hab hbc
  rcases hab with h1 | ⟨h1, h1'⟩ <;> rcases hbc with h2 | ⟨h2, h2'⟩
  · exact Or.inl (h2.trans h1)
  · exact Or.inl (by rw [← h2]; exact h1)
  · exact Or.inl (by rw [h1]; exact h2)
  · exact Or.inr ⟨h1.trans h2, le_trans h1' h2'⟩

theorem rowLeDesc_total {V : Type} [LinearOrder V] (key : Row → V) :
    ∀ a b, rowLeDesc key a b ∨ rowLeDesc key b a := by
  intro a b
  rcases lt_trichotomy (key a.2) (key b.2) with h | h | h
  · exact Or.inr (Or.inl h)
  · rcases le_total a.1 b.1 with h' | h'
    · exact Or.inl (Or.inr ⟨h, h'⟩)
    · exact Or.inr (Or.inr ⟨h.symm, h'⟩)
  · exact Or.inl (Or.inl h)

theorem sortedEnum_perm {V : Type} [LinearOrder V] (t : Table) (key : Row → V) :
    (sortedEnum t key).Perm t.enum :=
  List.perm_insertionSort _ _

theorem sortedEnum_pairwise {V : Type} [LinearOrder V] (t : Table) (key : Row → V) :
    (sortedEnum t key).Pairwise (rowLeDesc key) := by
  haveI : IsTotal (Nat × Row) (rowLeDesc key) := ⟨rowLeDesc_total key⟩
  haveI : IsTrans (Nat × Row) (rowLeDesc key) :=
    ⟨fun a b c => rowLeDesc_trans key a b c⟩
  exact List.sorted_insertionSort _ _

theorem sortedEnum_fst_nodup {V : Type} [LinearOrder V] (t : Table) (key : Row → V) :
    ((sortedEnum t key).map Prod.fst).Nodup :=
  ((sortedEnum_perm t key).map Prod.fst).nodup_iff.mpr (List.nodup_enum_map_fst t)

theorem sortedEnum_stable {V : Type} [LinearOrder V] (t : Table) (key : Row → V) :
    (sortedEnum t key).Pairwise (fun p q => key p.2 = key q.2 → p.1 < q.1) := by
  have h1 := sortedEnum_pairwise t key
  have h2 : (sortedEnum t key).Pairwise (fun p q : Nat × Row => p.1 ≠ q.1) :=
    List.pairwise_map.mp (sortedEnum_fst_nodup t key)
  refine (h1.and h2).imp ?_
  rintro p q ⟨hle, hne⟩ heq
  rcases hle with h | ⟨_, h⟩
  · rw [heq] at h
    exact absurd h (lt_irrefl _)
  · exact lt_of_le_of_ne h hne

theorem orderByDesc_perm {V : Type} [LinearOrder V] (t : Table) (key : Row → V) :
    (orderByDesc t key).Perm t := by
  have h2 := (sortedEnum_perm t key).map Prod.snd
  have h3 : t.enum.map Prod.snd = t := List.enumFrom_map_snd 0 t
  rw [h3] at h2
  exact h2

theorem orderByDesc_sorted {V : Type} [LinearOrder V] (t : Table) (key : Row → V) :
    (orderByDesc t key).Pairwise (fun a b => key b ≤ key a) := by
  have h1 := sortedEnum_pairwise t key
  unfold orderByDesc
  rw [List.pairwise_map]
  refine h1.imp ?_
  rintro p q (h | ⟨h, _⟩)
  · exact le_of_lt h
  · exact le_of_eq h.symm

/-- C4: `limit(orderBy(T, key, desc), n)` is the length-`min n |T|` prefix,
in order, of the stable descending sort of `T` by `key`: `orderBy` returns a
permutation of `T`, sorted descending by `key` (comparison following the
column's value kind through the key extractor), and on the index-decorated
rows two equal-key rows keep their relative input order. -/
theorem orderBy_limit_spec {V : Type} [LinearOrder V] (t : Table) (key : Row → V) (n : Nat) :
    limitOp (orderByDesc t key) n = (orderByDesc t key).take n ∧
    (limitOp (orderByDesc t key) n).length = min n t.length ∧
    (orderByDesc t key).Perm t ∧
    (orderByDesc t key).Pairwise (fun a b => key b ≤ key a) ∧
    (sortedEnum t key).map Prod.snd = orderByDesc t key ∧
    (sortedEnum t key).Perm t.enum ∧
    (sortedEnum t key).Pairwise (fun p q => key p.2 = key q.2 → p.1 < q.1) := by
  refine ⟨rfl, ?_, orderByDesc_perm t key, orderByDesc_sorted t key, rfl,
    sortedEnum_perm t key, sortedEnum_stable t key⟩
  have hlen : (orderByDesc t key).length = t.length := (orderByDesc_perm t key).length_eq
  simp [limitOp, hlen]

/-- Witness for C4 at a concrete two-row table. -/
theorem orderBy_limit_spec_witness :
    (orderByDesc [[("c", Value.int 1)], [("c", Value.int 2)]] (cntKey "c")).Perm
      [[("c", Value.int 1)], [("c", Value.int 2)]] ∧
    (limitOp (orderByDesc [[("c", Value.int 1)], [("c", Value.int 2)]] (cntKey "c")) 1).length =
      min 1 2 :=
  ⟨(orderBy_limit_spec [[("c", Value.int 1)], [("c", Value.int 2)]] (cntKey "c") 1).2.2.1,
   (orderBy_limit_spec [[("c", Value.int 1)], [("c", Value.int 2)]] (cntKey "c") 1).2.1⟩

/-! ## C3 — rank: a bijection onto {1..k} within each partition -/

theorem rankKey_inj {V : Type} [LinearOrder V] (t : Table) (ov : Row → V) {i j : Nat}
    (h : rankKey t ov i = rankKey t ov j) : i = j := by
  have := congrArg (fun x => (ofLex x).2) h
  simpa [rankKey] using this

theorem rankPrec_iff {K V : Type} [DecidableEq K] [LinearOrder V]
    (t : Table) (pk : Row → K) (ov : Row → V) (j i : Nat) :
    rankPrec t pk ov j i ↔
      pk (rowAt t j) = pk (rowAt t i) ∧ rankKey t ov j < rankKey t ov i := by
  simp only [rankPrec, rankKey, Prod.Lex.lt_iff, OrderDual.toDual_lt_toDual]
  constructor
  · rintro ⟨hp, h | ⟨h1, h2⟩⟩
    · exact ⟨hp, Or.inl h⟩
    · exact ⟨hp, Or.inr ⟨by simp [h1], h2⟩⟩
  · rintro ⟨hp, h | ⟨h1, h2⟩⟩
    · exact ⟨hp, Or.inl h⟩
    · refine ⟨hp, Or.inr ⟨?_, h2⟩⟩
      simpa using h1

theorem rankNat_eq {K V : Type} [DecidableEq K] [LinearOrder V]
    (t : Table) (pk : Row → K) (ov : Row → V) (i : Nat) :
    rankNat t pk ov i =
      1 + ((rankPart t pk i).filter (fun j => rankKey t ov j < rankKey t ov i)).card := by
  unfold rankNat rankPart
  congr 1
  rw [Finset.filter_filter]
  congr 1
  ext j
  simp [rankPrec_iff]

theorem rankPart_eq_of_mem {K : Type} [DecidableEq K] (t : Table) (pk : Row → K) {i j : Nat}
    (h : j ∈ rankPart t pk i) : rankPart t pk j = rankPart t pk i := by
  obtain ⟨_, hpk⟩ := Finset.mem_filter.mp h
  unfold rankPart
  ext x
  simp [Finset.mem_filter, hpk]

theorem rankNat_strictMono {K V : Type} [DecidableEq K] [LinearOrder V]
    (t : Table) (pk : Row → K) (ov : Row → V) {i j : Nat}
    (hij : j ∈ rankPart t pk i) (hlt : rankKey t ov j < rankKey t ov i) :
    rankNat t pk ov j < rankNat t pk ov i := by
  rw [rankNat_eq, rankNat_eq, rankPart_eq_of_mem t pk hij]
  have hss : (rankPart t pk i).filter (fun x => rankKey t ov x < rankKey t ov j) ⊆
      (rankPart t pk i).filter (fun x => rankKey t ov x < rankKey t ov i) := by
    intro x hx
    obtain ⟨h1, h2⟩ := Finset.mem_filter.mp hx
    exact Finset.mem_filter.mpr ⟨h1, h2.trans hlt⟩
  have hsub : (rankPart t pk i).filter (fun x => rankKey t ov x < rankKey t ov j) ⊂
      (rankPart t pk i).filter (fun x => rankKey t ov x < rankKey t ov i) := by
    rw [Finset.ssubset_iff_of_subset hss]
    exact ⟨j, Finset.mem_filter.mpr ⟨hij, hlt⟩,
      fun hc => absurd ((Finset.mem_filter.mp hc).2) (lt_irrefl _)⟩
  have := Finset.card_lt_card hsub
  omega

theorem rankNat_pos {K V : Type} [DecidableEq K] [LinearOrder V]
    (t : Table) (pk : Row → K) (ov : Row → V) (i : Nat) :
    1 ≤ rankNat t pk ov i := by
  unfold rankNat
  omega

theorem rankNat_le_card {K V : Type} [DecidableEq K] [LinearOrder V]
    (t : Table) (pk : Row → K) (ov : Row → V) (i : Nat) (hi : i ∈ rankPart t pk i) :
    rankNat t pk ov i ≤ (rankPart t pk i).card := by
  rw [rankNat_eq]
  have hsub : (rankPart t pk i).filter (fun x => rankKey t ov x < rankKey t ov i) ⊆
      (rankPart t pk i).erase i := by
    intro x hx
    obtain ⟨hx1, hx2⟩ := Finset.mem_filter.mp hx
    refine Finset.mem_erase.mpr ⟨?_, hx1⟩
    rintro rfl
    exact absurd hx2 (lt_irrefl _)
  have h1 := Finset.card_le_card hsub
  have h2 := Finset.card_erase_of_mem hi
  have h3 : 0 < (rankPart t pk i).card := Finset.card_pos.mpr ⟨i, hi⟩
  omega

theorem self_mem_rankPart {K : Type} [DecidableEq K] (t : Table) (pk : Row → K) (i : Nat)
    (hi : i < t.length) : i ∈ rankPart t pk i :=
  Finset.mem_filter.mpr ⟨Finset.mem_range.mpr hi, rfl⟩

theorem rankNat_le_length {K V : Type} [DecidableEq K] [LinearOrder V]
    (t : Table) (pk : Row → K) (ov : Row → V) (i : Nat) (hi : i < t.length) :
    rankNat t pk ov i ≤ t.length := by
  refine le_trans (rankNat_le_card t pk ov i (self_mem_rankPart t pk i hi)) ?_
  have := Finset.card_le_card (Finset.filter_subset
    (fun j => pk (rowAt t j) = pk (rowAt t i)) (Finset.range t.length))
  simpa using this

theorem rankNat_image {K V : Type} [DecidableEq K] [LinearOrder V]
    (t : Table) (pk : Row → K) (ov : Row → V) (i : Nat) (_hi : i < t.length) :
    (rankPart t pk i).image (rankNat t pk ov) = Finset.Icc 1 (rankPart t pk i).card := by
  have hsub : (rankPart t pk i).image (rankNat t pk ov) ⊆
      Finset.Icc 1 (rankPart t pk i).card := by
    intro m hm
    obtain ⟨j, hj, rfl⟩ := Finset.mem_image.mp hm
    have hpe := rankPart_eq_of_mem t pk hj
    refine Finset.mem_Icc.mpr ⟨rankNat_pos t pk ov j, ?_⟩
    have := rankNat_le_card t pk ov j (by rw [hpe]; exact hj)
    rwa [hpe] at this
  have hinj : Set.InjOn (rankNat t pk ov) (rankPart t pk i) := by
    intro a ha b hb hab
    by_contra hne
    have hpa := rankPart_eq_of_mem t pk ha
    have hb' : b ∈ rankPart t pk a := by rw [hpa]; exact hb
    rcases lt_trichotomy (rankKey t ov b) (rankKey t ov a) with h | h | h
    · exact absurd hab.symm (Nat.ne_of_lt (rankNat_strictMono t pk ov hb' h))
    · exact hne (rankKey_inj t ov h.symm)
    · have ha' : a ∈ rankPart t pk b := by
        rw [rankPart_eq_of_mem t pk hb', hpa]
        exact ha
      exact absurd hab (Nat.ne_of_lt (rankNat_strictMono t pk ov ha' h))
  have hcard : ((rankPart t pk i).image (rankNat t pk ov)).card = (rankPart t pk i).card :=
    Finset.card_image_of_injOn hinj
  refine Finset.eq_of_subset_of_card_le hsub ?_
  rw [hcard]
  simp [Nat.card_Icc]

theorem rankNat_one_max {K V : Type} [DecidableEq K] [LinearOrder V]
    (t : Table) (pk : Row → K) (ov : Row → V) {i j : Nat}
    (hj : j ∈ rankPart t pk i) (h1 : rankNat t pk ov i = 1) :
    ov (rowAt t j) ≤ ov (rowAt t i) := by
  rw [rankNat_eq] at h1
  have hempty : (rankPart t pk i).filter (fun x => rankKey t ov x < rankKey t ov i) = ∅ :=
    Finset.card_eq_zero.mp (by omega)
  by_contra hlt
  push_neg at hlt
  have hkey : rankKey t ov j < rankKey t ov i := by
    unfold rankKey
    rw [Prod.Lex.lt_iff]
    exact Or.inl (by simpa using hlt)
  have hmem : j ∈ (rankPart t pk i).filter (fun x => rankKey t ov x < rankKey t ov i) :=
    Finset.mem_filter.mpr ⟨hj, hkey⟩
  rw [hempty] at hmem
  exact absurd hmem (Finset.not_mem_empty j)

theorem rankTable_length {K V : Type} [DecidableEq K] [LinearOrder V]
    (t : Table) (pk : Row → K) (ov : Row → V) (rn : String) :
    (rankTable t pk ov rn).length = t.length := by
  simp [rankTable]

theorem rankTable_row {K V : Type} [DecidableEq K] [LinearOrder V]
    (t : Table) (pk : Row → K) (ov : Row → V) (rn : String) (i : Nat) (hi : i < t.length) :
    (rankTable t pk ov rn).getD i [] = rowAt t i ++ [(rn, Value.int (rankNat t pk ov i))] := by
  unfold rankTable
  rw [List.getD_eq_getElem?_getD, List.getElem?_map]
  simp [List.getElem?_range, hi]

/-- C3: `rank` removes no rows — row `i` of the output is row `i` of the
input extended with the rank column; within each partition of `k` rows the
assigned ranks are exactly the set `{1..k}`; the value of a rank-1 row is
`≥` every other value in its partition; and two same-partition rows with
equal order values are ranked in original-position order. -/
theorem rank_spec {K V : Type} [DecidableEq K] [LinearOrder V]
    (t : Table) (pk : Row → K) (ov : Row → V) (rn : String) :
    (rankTable t pk ov rn).length = t.length ∧
    (∀ i, i < t.length →
      (rankTable t pk ov rn).getD i [] = rowAt t i ++ [(rn, Value.int (rankNat t pk ov i))]) ∧
    (∀ i, i < t.length →
      (rankPart t pk i).image (rankNat t pk ov) = Finset.Icc 1 (rankPart t pk i).card) ∧
    (∀ i j, i < t.length → j < t.length → pk (rowAt t j) = pk (rowAt t i) →
      rankNat t pk ov i = 1 → ov (rowAt t j) ≤ ov (rowAt t i)) ∧
    (∀ i j, i < j → j < t.length → pk (rowAt t i) = pk (rowAt t j) →
      ov (rowAt t i) = ov (rowAt t j) → rankNat t pk ov i < rankNat t pk ov j) := by
  refine ⟨rankTable_length t pk ov rn, fun i hi => rankTable_row t pk ov rn i hi,
    fun i hi => rankNat_image t pk ov i hi, ?_, ?_⟩
  · intro i j hi hj hpk h1
    exact rankNat_one_max t pk ov
      (Finset.mem_filter.mpr ⟨Finset.mem_range.mpr hj, hpk⟩) h1
  · intro i j hij hj hpk hov
    have hmem : i ∈ rankPart t pk j :=
      Finset.mem_filter.mpr ⟨Finset.mem_range.mpr (hij.trans hj), hpk⟩
    refine rankNat_strictMono t pk ov hmem ?_
    unfold rankKey
    rw [Prod.Lex.lt_iff]
    exact Or.inr ⟨by simp [hov], hij⟩

/-- Witness for C3 at a concrete four-row table: partition column `p`,
order column `c`, with a tie between rows 0 and 3. -/
theorem rank_spec_witness :
    (rankPart [[("p", Value.str "a"), ("c", Value.int 5)],
               [("p", Value.str "a"), ("c", Value.int 7)],
               [("p", Value.str "b"), ("c", Value.int 5)],
               [("p", Value.str "a"), ("c", Value.int 5)]]
        (fun r => getV r "p") 0).image
      (rankNat [[("p", Value.str "a"), ("c", Value.int 5)],
                [("p", Value.str "a"), ("c", Value.int 7)],
                [("p", Value.str "b"), ("c", Value.int 5)],
                [("p", Value.str "a"), ("c", Value.int 5)]]
        (fun r => getV r "p") (cntKey "c")) =
      Finset.Icc 1
        (rankPart [[("p", Value.str "a"), ("c", Value.int 5)],
                   [("p", Value.str "a"), ("c", Value.int 7)],
                   [("p", Value.str "b"), ("c", Value.int 5)],
                   [("p", Value.str "a"), ("c", Value.int 5)]]
          (fun r => getV r "p") 0).card ∧
    rankNat [[("p", Value.str "a"), ("c", Value.int 5)],
             [("p", Value.str "a"), ("c", Value.int 7)],
             [("p", Value.str "b"), ("c", Value.int 5)],
             [("p", Value.str "a"), ("c", Value.int 5)]]
      (fun r => getV r "p") (cntKey "c") 0 <
      rankNat [[("p", Value.str "a"), ("c", Value.int 5)],
               [("p", Value.str "a"), ("c", Value.int 7)],
               [("p", Value.str "b"), ("c", Value.int 5)],
               [("p", Value.str "a"), ("c", Value.int 5)]]
        (fun r => getV r "p") (cntKey "c") 3 :=
  ⟨(rank_spec [[("p", Value.str "a"), ("c", Value.int 5)],
               [("p", Value.str "a"), ("c", Value.int 7)],
               [("p", Value.str "b"), ("c", Value.int 5)],
               [("p", Value.str "a"), ("c", Value.int 5)]]
      (fun r => getV r "p") (cntKey "c") "rn").2.2.1 0 (by decide),
   (rank_spec [[("p", Value.str "a"), ("c", Value.int 5)],
               [("p", Value.str "a"), ("c", Value.int 7)],
               [("p", Value.str "b"), ("c", Value.int 5)],
               [("p", Value.str "a"), ("c", Value.int 5)]]
      (fun r => getV r "p") (cntKey "c") "rn").2.2.2.2 0 3 (by decide) (by decide)
      (by decide) (by decide)⟩

/-! ## C5 — analysis 3 returns the first-seen state of maximal female count -/

theorem find?_congrP {α : Type} (p q : α → Bool) (l : List α) (h : ∀ x ∈ l, p x = q x) :
    l.find? p = l.find? q := by
  induction l with
  | nil => rfl
  | cons a as ih =>
    have ha := h a (List.mem_cons_self a as)
    cases hp : p a with
    | true =>
      rw [List.find?_cons_of_pos _ hp, List.find?_cons_of_pos _ (by rw [← ha]; exact hp)]
    | false =>
      rw [List.find?_cons_of_neg _ (by simp [hp]),
        List.find?_cons_of_neg _ (by simp [← ha, hp]),
        ih (fun x hx => h x (List.mem_cons_of_mem a hx))]

theorem head?_take_one {α : Type} (l : List α) : (l.take 1).head? = l.head? := by
  cases l <;> rfl

theorem le_foldrMax {x : Int} {l : List Int} (h : x ∈ l) : x ≤ l.foldr max 0 := by
  induction l with
  | nil => exact absurd h (List.not_mem_nil x)
  | cons a as ih =>
    rcases List.mem_cons.mp h with rfl | h'
    · exact le_max_left _ _
    · exact le_trans (ih h') (le_max_right _ _)

theorem foldrMax_mem : ∀ (l : List Int), l ≠ [] → (∀ x ∈ l, 0 ≤ x) → l.foldr max 0 ∈ l
  | [], h, _ => absurd rfl h
  | [a], _, h0 => by
    have : max a 0 = a := max_eq_left (h0 a (List.mem_cons_self a []))
    simp [this]
  | a :: b :: as, _, h0 => by
    have ih := foldrMax_mem (b :: as) (by simp)
      (fun x hx => h0 x (List.mem_cons_of_mem a hx))
    show max a ((b :: as).foldr max 0) ∈ a :: b :: as
    rcases le_total a ((b :: as).foldr max 0) with h | h
    · rw [max_eq_right h]
      exact List.mem_cons_of_mem a ih
    · rw [max_eq_left h]
      exact List.mem_cons_self _ _

theorem head_sortedEnum_max {V : Type} [LinearOrder V] (t : Table) (key : Row → V)
    {p : Nat × Row} (hp : (sortedEnum t key).head? = some p) :
    p ∈ t.enum ∧ (∀ q ∈ t.enum, key q.2 ≤ key p.2) ∧
      (∀ q ∈ t.enum, key q.2 = key p.2 → p.1 ≤ q.1) := by
  obtain ⟨rest, hrest⟩ : ∃ rest, sortedEnum t key = p :: rest := by
    cases hse : sortedEnum t key with
    | nil => rw [hse] at hp; simp at hp
    | cons a as =>
      rw [hse] at hp
      simp only [List.head?_cons] at hp
      exact ⟨as, by rw [Option.some.inj hp]⟩
  have hperm : (p :: rest).Perm t.enum := by
    rw [← hrest]; exact sortedEnum_perm t key
  have hpw : (p :: rest).Pairwise (rowLeDesc key) := by
    rw [← hrest]; exact sortedEnum_pairwise t key
  have hall : ∀ q ∈ rest, rowLeDesc key p q := (List.pairwise_cons.mp hpw).1
  have hmem : ∀ q ∈ t.enum, q = p ∨ q ∈ rest := by
    intro q hq
    exact List.mem_cons.mp (hperm.mem_iff.mpr hq)
  refine ⟨hperm.subset (List.mem_cons_self p rest), ?_, ?_⟩
  · intro q hq
    rcases hmem q hq with rfl | hq'
    · exact le_refl _
    · rcases hall q hq' with h | ⟨h, _⟩
      · exact le_of_lt h
      · exact le_of_eq h.symm
  · intro q hq heq
    rcases hmem q hq with rfl | hq'
    · exact le_refl _
    · rcases hall q hq' with h | ⟨_, h⟩
      · rw [heq] at h
        exact absurd h (lt_irrefl _)
      · exact h

theorem head_orderByDesc_max {V : Type} [LinearOrder V] (t : Table) (key : Row → V) {r : Row}
    (h : (orderByDesc t key).head? = some r) : ∀ x ∈ t, key x ≤ key r := by
  have h' : ((sortedEnum t key).head?).map Prod.snd = some r := by
    rw [← List.head?_map]; exact h
  cases hp : (sortedEnum t key).head? with
  | none => rw [hp] at h'; simp at h'
  | some p =>
    rw [hp] at h'
    have hpr : p.2 = r := Option.some.inj h'
    obtain ⟨_, hmax, _⟩ := head_sortedEnum_max t key hp
    intro x hx
    obtain ⟨j, hj⟩ := List.mem_iff_getElem?.mp hx
    have henum : (j, x) ∈ t.enum := List.mem_enum_iff_getElem?.mpr hj
    rw [← hpr]
    exact hmax (j, x) henum

theorem head_orderByDesc_find {V : Type} [LinearOrder V] (t : Table) (key : Row → V) {r : Row}
    (h : (orderByDesc t key).head? = some r) :
    t.find? (fun x => decide (key x = key r)) = some r := by
  have h' : ((sortedEnum t key).head?).map Prod.snd = some r := by
    rw [← List.head?_map]; exact h
  cases hp : (sortedEnum t key).head? with
  | none => rw [hp] at h'; simp at h'
  | some p =>
    rw [hp] at h'
    have hpr : p.2 = r := Option.some.inj h'
    obtain ⟨hmem, _, hleast⟩ := head_sortedEnum_max t key hp
    have hget2 : t[p.1]? = some p.2 := List.mem_enum_iff_getElem?.mp hmem
    have hlen : p.1 < t.length := by
      by_contra hc
      push_neg at hc
      rw [List.getElem?_eq_none hc] at hget2
      simp at hget2
    have helem : t[p.1] = p.2 := by
      have h3 := List.getElem?_eq_getElem hlen
      rw [hget2] at h3
      exact (Option.some.inj h3).symm
    subst hpr
    refine List.find?_eq_some.mpr ⟨by simp, t.take p.1, t.drop (p.1 + 1), ?_, ?_⟩
    · conv_lhs => rw [← List.take_append_drop p.1 t]
      congr 1
      rw [List.drop_eq_getElem_cons hlen, helem]
    · intro a ha
      suffices hs : ¬ (key a = key p.2) by simp [hs]
      intro heq
      obtain ⟨j, hj, hja⟩ := List.mem_iff_getElem.mp ha
      have hjlt : j < p.1 := by
        have h4 := hj
        simp only [List.length_take] at h4
        omega
      have hjq : t[j]? = some a := by
        rw [← List.getElem?_take_of_lt hjlt, List.getElem?_eq_getElem hj, hja]
      have henum : (j, a) ∈ t.enum := List.mem_enum_iff_getElem?.mpr hjq
      have := hleast (j, a) henum heq
      omega

theorem head_orderByDesc_eq_find_max {V : Type} [LinearOrder V] (t : Table) (key : Row → V)
    (mx : V) (hub : ∀ x ∈ t, key x ≤ mx) (hat : ∃ x ∈ t, key x = mx) :
    (orderByDesc t key).head? = t.find? (fun x => decide (key x = mx)) := by
  obtain ⟨x0, hx0, hkx0⟩ := hat
  cases hh : (orderByDesc t key).head? with
  | none =>
    rw [List.head?_eq_none_iff] at hh
    have hlen := (orderByDesc_perm t key).length_eq
    rw [hh] at hlen
    have ht : t = [] := List.length_eq_zero.mp hlen.symm
    subst ht
    exact absurd hx0 (List.not_mem_nil x0)
  | some r =>
    have hfind := head_orderByDesc_find t key hh
    have hrmem : r ∈ t := by
      have hro : r ∈ orderByDesc t key := by
        cases hod : orderByDesc t key with
        | nil => rw [hod] at hh; simp at hh
        | cons a as =>
          rw [hod] at hh
          simp only [List.head?_cons] at hh
          have har : a = r := Option.some.inj hh
          subst har
          exact List.mem_cons_self _ _
      exact (orderByDesc_perm t key).subset hro
    have hkey : key r = mx := by
      refine le_antisymm (hub r hrmem) ?_
      rw [← hkx0]
      exact head_orderByDesc_max t key hh x0 hx0
    rw [hkey] at hfind
    exact hfind.symm

theorem cntKey_g3Row (cnt : Value → Int) (v : Value) :
    cntKey "cnt" (g3Row cnt v) = cnt v := by
  unfold cntKey getV g3Row
  rw [List.find?_cons_of_neg _ (by simp), List.find?_cons_of_pos _ (by simp)]

theorem state_g3Row (cnt : Value → Int) (v : Value) :
    getV (g3Row cnt v) "DRVR_LIC_STATE_ID" = v := by
  unfold getV g3Row
  rw [List.find?_cons_of_pos _ (by simp)]

theorem orderByDesc_groups_head (ks : List Value) (cnt : Value → Int)
    (h0 : ∀ v, 0 ≤ cnt v) :
    ((orderByDesc (ks.map (g3Row cnt)) (cntKey "cnt")).head?).map
        (fun r => getV r "DRVR_LIC_STATE_ID") =
      ks.find? (fun v => cnt v == (ks.map cnt).foldr max 0) := by
  cases hks : ks with
  | nil => rfl
  | cons v0 ks' =>
    rw [← hks]
    have hne : ks ≠ [] := by rw [hks]; simp
    have hub : ∀ x ∈ ks.map (g3Row cnt), cntKey "cnt" x ≤ (ks.map cnt).foldr max 0 := by
      intro x hx
      obtain ⟨v, hv, rfl⟩ := List.mem_map.mp hx
      rw [cntKey_g3Row]
      exact le_foldrMax (List.mem_map_of_mem cnt hv)
    have hat : ∃ x ∈ ks.map (g3Row cnt), cntKey "cnt" x = (ks.map cnt).foldr max 0 := by
      have hmx : (ks.map cnt).foldr max 0 ∈ ks.map cnt := by
        refine foldrMax_mem _ (by simp [hks]) ?_
        intro x hx
        obtain ⟨v, _, rfl⟩ := List.mem_map.mp hx
        exact h0 v
      obtain ⟨v, hv, hveq⟩ := List.mem_map.mp hmx
      exact ⟨g3Row cnt v, List.mem_map_of_mem _ hv, by rw [cntKey_g3Row]; exact hveq⟩
    rw [head_orderByDesc_eq_find_max (ks.map (g3Row cnt)) (cntKey "cnt") _ hub hat]
    rw [List.find?_map, Option.map_map]
    rw [show ((fun r => getV r "DRVR_LIC_STATE_ID") ∘ g3Row cnt) = id from
      funext (fun v => state_g3Row cnt v)]
    rw [Option.map_id, Function.comp_def]
    apply find?_congrP
    intro v _
    rw [cntKey_g3Row]
    by_cases h : cnt v = (ks.map cnt).foldr max 0 <;> simp [h]

/-- C5: for every Primary table, analysis 3 computes exactly the first-seen
driver-license-state key of maximal FEMALE-row count (the spec's description
of "highest count, ties to the first-seen key"); in the [TX, TX, OK]
scenario, the result table is the single row (TX, 2) and the extracted state
is TX. -/
theorem analysis3_refines (primary : Table) :
    analysis3 primary = specTopState3 primary ∧
    analysis3Df primary3 = [[("DRVR_LIC_STATE_ID", Value.str "TX"), ("cnt", Value.int 2)]] ∧
    analysis3 primary3 = some (Value.str "TX") := by
  refine ⟨?_, by decide, by decide⟩
  show ((analysis3Df primary).map (fun r => getV r "DRVR_LIC_STATE_ID")).head? = _
  unfold analysis3Df limitOp
  rw [List.head?_map, head?_take_one]
  exact orderByDesc_groups_head
    (dedupF ((filterOp primary (eqPred "PRSN_GNDR_ID" "FEMALE")).map
      (fun r => getV r "DRVR_LIC_STATE_ID")))
    (fun v => ((filterOp primary (eqPred "PRSN_GNDR_ID" "FEMALE")).countP
      (fun r => getV r "DRVR_LIC_STATE_ID" == v) : Int))
    (fun v => Int.ofNat_nonneg _)

/-! ## C6 — analysis 4: at most 11 makes, descending, empty when scarce -/

theorem getV_append_other (r : Row) (c d : String) (v : Value) (h : d ≠ c) :
    getV (r ++ [(c, v)]) d = getV r d := by
  unfold getV
  rw [List.find?_append]
  cases hf : r.find? (fun p => decide (p.1 = d)) with
  | some p => rfl
  | none =>
    rw [List.find?_cons_of_neg _ (by simp [Ne.symm h])]
    rfl

theorem find?_filter_of_imp {α : Type} (l : List α) (p q : α → Bool)
    (h : ∀ x, p x = true → q x = true) :
    (l.filter q).find? p = l.find? p := by
  induction l with
  | nil => rfl
  | cons a as ih =>
    cases hq : q a with
    | true =>
      rw [List.filter_cons, if_pos (by simp [hq])]
      cases hp : p a with
      | true => rw [List.find?_cons_of_pos _ hp, List.find?_cons_of_pos _ hp]
      | false =>
        rw [List.find?_cons_of_neg _ (by simp [hp]), List.find?_cons_of_neg _ (by simp [hp]),
          ih]
    | false =>
      rw [List.filter_cons, if_neg (by simp [hq])]
      have hp : p a = false := by
        cases hpa : p a
        · rfl
        · have := h a hpa
          rw [hq] at this
          exact absurd this (by simp)
      rw [List.find?_cons_of_neg _ (by simp [hp]), ih]

theorem getV_addRow_other (newC a b d : String) (r : Row) (h : d ≠ newC) :
    getV (addRow newC a b r) d = getV r d := by
  unfold addRow
  rw [getV_append_other _ _ _ _ h]
  unfold getV removeCol
  rw [find?_filter_of_imp]
  intro x hx
  simp only [decide_eq_true_eq] at hx
  simp [hx, h]

theorem getV_addRow_new (newC a b : String) (r : Row) :
    getV (addRow newC a b r) newC =
      Value.int ((parseNum (getV r a)).getD 0 + (parseNum (getV r b)).getD 0) := by
  unfold addRow getV
  rw [List.find?_append]
  have h1 : (removeCol r newC).find? (fun p => decide (p.1 = newC)) = none := by
    rw [List.find?_eq_none]
    intro x hx
    have h2 := (List.mem_filter.mp hx).2
    simp only [decide_eq_true_eq] at h2 ⊢
    exact h2
  rw [h1, List.find?_cons_of_pos _ (by simp)]
  rfl

theorem addCols_ok (newC a b : String) (r : Row)
    (ha : (parseNum (getV r a)).isSome) (hb : (parseNum (getV r b)).isSome) :
    addCols newC a b r = Except.ok (addRow newC a b r) := by
  obtain ⟨x, hx⟩ := Option.isSome_iff_exists.mp ha
  obtain ⟨y, hy⟩ := Option.isSome_iff_exists.mp hb
  unfold addCols addRow
  rw [hx, hy]
  simp

theorem withColumnAdd_ok (t : Table) (newC a b : String)
    (h : ∀ r ∈ t, (parseNum (getV r a)).isSome ∧ (parseNum (getV r b)).isSome) :
    withColumnAdd t newC a b = Except.ok (t.map (addRow newC a b)) :=
  mapE_ok_of_forall _ _ t (fun r hr => addCols_ok newC a b r (h r hr).1 (h r hr).2)

theorem groupBySum_ok (t : Table) (key sumCol agg : String)
    (h : ∀ r ∈ t, (parseNum (getV r sumCol)).isSome) :
    groupBySum t key sumCol agg = Except.ok
      ((dedupF (t.map (fun r => getV r key))).map (fun v =>
        [(key, v), (agg, Value.int
          (((t.filter (fun r => getV r key == v)).map
            (fun r => (parseNum (getV r sumCol)).getD 0)).foldr (· + ·) 0))])) := by
  apply mapE_ok_of_forall
  intro v _
  have hinner : mapE (sumCell sumCol) (t.filter (fun r => getV r key == v)) =
      Except.ok ((t.filter (fun r => getV r key == v)).map
        (fun r => (parseNum (getV r sumCol)).getD 0)) := by
    apply mapE_ok_of_forall
    intro r hr
    obtain ⟨n, hn⟩ := Option.isSome_iff_exists.mp (h r (List.mem_filter.mp hr).1)
    unfold sumCell
    rw [hn]
    simp [hn]
  rw [hinner]

theorem make_g4Row (s : Value → Int) (v : Value) : getV (g4Row s v) "VEH_MAKE_ID" = v := by
  unfold getV g4Row
  rw [List.find?_cons_of_pos _ (by simp)]

theorem agg_g4Row (s : Value → Int) (v : Value) :
    cntKey "AGG_TOTAL_INJ_DEATH_CNT" (g4Row s v) = s v := by
  unfold cntKey getV g4Row
  rw [List.find?_cons_of_neg _ (by simp), List.find?_cons_of_pos _ (by simp)]

theorem find?_rn_g4Row (s : Value → Int) (v : Value) :
    (g4Row s v).find? (fun p => decide (p.1 = "rn")) = none := by
  unfold g4Row
  rw [List.find?_cons_of_neg _ (by simp), List.find?_cons_of_neg _ (by simp)]
  rfl

theorem rn_g4Row_append (s : Value → Int) (v x : Value) :
    getV (g4Row s v ++ [("rn", x)]) "rn" = x := by
  unfold getV
  rw [List.find?_append, find?_rn_g4Row, List.find?_cons_of_pos _ (by simp)]
  rfl

theorem cntKey_rn_g4Row_append (s : Value → Int) (v : Value) (k : Int) :
    cntKey "rn" (g4Row s v ++ [("rn", Value.int k)]) = k := by
  unfold cntKey
  rw [rn_g4Row_append]

theorem rankPart_unit (t : Table) (i : Nat) :
    rankPart t (fun _ => ()) i = Finset.range t.length := by
  unfold rankPart
  simp

theorem rankNat_inj {K V : Type} [DecidableEq K] [LinearOrder V]
    (t : Table) (pk : Row → K) (ov : Row → V) {i j : Nat}
    (hi : i < t.length) (hj : j < t.length) (hpk : pk (rowAt t i) = pk (rowAt t j))
    (h : rankNat t pk ov i = rankNat t pk ov j) : i = j := by
  by_contra hne
  have hmem : j ∈ rankPart t pk i :=
    Finset.mem_filter.mpr ⟨Finset.mem_range.mpr hj, hpk.symm⟩
  rcases lt_trichotomy (rankKey t ov j) (rankKey t ov i) with hlt | heq | hgt
  · exact absurd h.symm (Nat.ne_of_lt (rankNat_strictMono t pk ov hmem hlt))
  · exact hne (rankKey_inj t ov heq).symm
  · have hmem' : i ∈ rankPart t pk j :=
      Finset.mem_filter.mpr ⟨Finset.mem_range.mpr hi, hpk⟩
    exact absurd h (Nat.ne_of_lt (rankNat_strictMono t pk ov hmem' hgt))

theorem rowAt_eq_getElem (t : Table) (i : Nat) (h : i < t.length) : rowAt t i = t[i] := by
  unfold rowAt
  rw [List.getD_eq_getElem?_getD, List.getElem?_eq_getElem h]
  rfl

theorem analysis4Tail_spec (ks : List Value) (s : Value → Int) :
    (analysis4Tail (ks.map (g4Row s))).length ≤ 11 ∧
    (analysis4Tail (ks.map (g4Row s))).Pairwise (fun a b => aggKey4 b ≤ aggKey4 a) ∧
    (ks.countP (keptKey "NA") < 5 → analysis4Tail (ks.map (g4Row s)) = []) := by
  simp only [analysis4Tail]
  set G := ks.map (g4Row s) with hG
  set S := orderByDesc G aggKey4 with hS
  set fl := filterOp S (nePred "VEH_MAKE_ID" "NA") with hfl
  set ranked := rankTable fl (fun _ => ()) aggKey4 "rn" with hranked
  set final := filterOp ranked
    (fun r => decide (5 ≤ cntKey "rn" r) && decide (cntKey "rn" r ≤ 15)) with hfinal
  have hflmem : ∀ r ∈ fl, ∃ v ∈ ks, r = g4Row s v := by
    intro r hr
    have h1 : r ∈ S := (List.mem_filter.mp hr).1
    have h2 : r ∈ G := (orderByDesc_perm G aggKey4).subset h1
    obtain ⟨v, hv, rfl⟩ := List.mem_map.mp h2
    exact ⟨v, hv, rfl⟩
  have hm : fl.length = ks.countP (keptKey "NA") := by
    rw [hfl]
    show (List.filter _ S).length = _
    rw [← List.countP_eq_length_filter, (orderByDesc_perm G aggKey4).countP_eq, hG,
      List.countP_map]
    apply List.countP_congr
    intro v _
    have heq : nePred "VEH_MAKE_ID" "NA" (g4Row s v) = keptKey "NA" v := by
      unfold nePred keptKey
      rw [make_g4Row]
    show (nePred "VEH_MAKE_ID" "NA" (g4Row s v) = true) ↔ _
    rw [heq]
  have hrankedmem : ∀ r' ∈ ranked, ∃ i, i < fl.length ∧
      r' = rowAt fl i ++ [("rn", Value.int (rankNat fl (fun _ => ()) aggKey4 i))] := by
    intro r' hr'
    rw [hranked] at hr'
    unfold rankTable at hr'
    obtain ⟨i, hi, rfl⟩ := List.mem_map.mp hr'
    exact ⟨i, List.mem_range.mp hi, rfl⟩
  have hrowshape : ∀ i, i < fl.length → ∃ v ∈ ks, rowAt fl i = g4Row s v := by
    intro i hi
    have hmem : rowAt fl i ∈ fl := by
      rw [rowAt_eq_getElem fl i hi]
      exact List.getElem_mem hi
    exact hflmem _ hmem
  have hrn : ∀ i, i < fl.length →
      cntKey "rn" (rowAt fl i ++ [("rn", Value.int (rankNat fl (fun _ => ()) aggKey4 i))]) =
        (rankNat fl (fun _ => ()) aggKey4 i : Int) := by
    intro i hi
    obtain ⟨v, _, hv⟩ := hrowshape i hi
    rw [hv, cntKey_rn_g4Row_append]
  have hagg : ∀ i, i < fl.length →
      aggKey4 (rowAt fl i ++ [("rn", Value.int (rankNat fl (fun _ => ()) aggKey4 i))]) =
        aggKey4 (rowAt fl i) := by
    intro i _
    unfold aggKey4 cntKey
    rw [getV_append_other _ _ _ _ (by decide)]
  refine ⟨?_, ?_, ?_⟩
  · -- length ≤ 11
    have hsubl : final.Sublist ranked := by
      rw [hfinal]
      exact List.filter_sublist _
    have hmapsub : (final.map (cntKey "rn")).Sublist (ranked.map (cntKey "rn")) :=
      hsubl.map _
    have hrankedmap : ranked.map (cntKey "rn") =
        (List.range fl.length).map (fun i => (rankNat fl (fun _ => ()) aggKey4 i : Int)) := by
      rw [hranked]
      unfold rankTable
      rw [List.map_map]
      apply List.map_congr_left
      intro i hi
      exact hrn i (List.mem_range.mp hi)
    have hnodup : ((List.range fl.length).map
        (fun i => (rankNat fl (fun _ => ()) aggKey4 i : Int))).Nodup := by
      refine List.Nodup.map_on ?_ (List.nodup_range fl.length)
      intro i hi j hj hij
      exact rankNat_inj fl (fun _ => ()) aggKey4 (List.mem_range.mp hi)
        (List.mem_range.mp hj) rfl (Int.natCast_inj.mp hij)
    have hfn : (final.map (cntKey "rn")).Nodup := by
      rw [hrankedmap] at hmapsub
      exact hmapsub.nodup hnodup
    have hbound : ∀ x ∈ final.map (cntKey "rn"), x ∈ Finset.Icc (5 : Int) 15 := by
      intro x hx
      obtain ⟨r', hr', rfl⟩ := List.mem_map.mp hx
      rw [hfinal] at hr'
      have hpred := (List.mem_filter.mp hr').2
      simp only [Bool.and_eq_true, decide_eq_true_eq] at hpred
      exact Finset.mem_Icc.mpr hpred
    have hsub2 : (final.map (cntKey "rn")).toFinset ⊆ Finset.Icc (5 : Int) 15 := by
      intro x hx
      exact hbound x (List.mem_toFinset.mp hx)
    have hcard := Finset.card_le_card hsub2
    rw [List.toFinset_card_of_nodup hfn] at hcard
    have hIcc : (Finset.Icc (5 : Int) 15).card = 11 := by
      rw [Int.card_Icc]
      rfl
    have hlen : (final.map (cntKey "rn")).length = final.length := List.length_map _ _
    omega
  · -- descending aggregate order
    have hflpw : fl.Pairwise (fun a b => aggKey4 b ≤ aggKey4 a) := by
      refine List.Pairwise.sublist ?_ (orderByDesc_sorted G aggKey4)
      rw [hfl]
      exact List.filter_sublist _
    have hlr : ranked.length = fl.length := by
      rw [hranked]
      exact rankTable_length fl (fun _ => ()) aggKey4 "rn"
    have hrankedpw : ranked.Pairwise (fun a b => aggKey4 b ≤ aggKey4 a) := by
      rw [List.pairwise_iff_getElem]
      intro i j hi hj hij
      have hi' : i < fl.length := by omega
      have hj' : j < fl.length := by omega
      have hgi : ranked[i] = rowAt fl i ++
          [("rn", Value.int (rankNat fl (fun _ => ()) aggKey4 i))] := by
        simp [hranked, rankTable]
      have hgj : ranked[j] = rowAt fl j ++
          [("rn", Value.int (rankNat fl (fun _ => ()) aggKey4 j))] := by
        simp [hranked, rankTable]
      rw [hgi, hgj, hagg i hi', hagg j hj',
        rowAt_eq_getElem fl i hi', rowAt_eq_getElem fl j hj']
      exact List.pairwise_iff_getElem.mp hflpw i j hi' hj' hij
    exact List.Pairwise.sublist (by rw [hfinal]; exact List.filter_sublist _) hrankedpw
  · -- scarcity
    intro hlt
    rw [hfinal]
    unfold filterOp
    rw [List.filter_eq_nil_iff]
    intro r' hr'
    obtain ⟨i, hi, rfl⟩ := hrankedmem r' hr'
    intro hc
    simp only [Bool.and_eq_true, decide_eq_true_eq] at hc
    have h5 := hc.1
    rw [hrn i hi] at h5
    have hb := rankNat_le_length fl (fun _ => ()) aggKey4 i hi
    rw [hm] at hb
    omega

/-- C6: when every unit row's count columns parse, analysis 4 succeeds and
returns the makes of its result table, which holds the makes ranked 5th to
15th: at most 11 rows, in descending aggregate order, with the 'NA' make
excluded before ranking; and when fewer than 5 distinct non-'NA' makes
exist, the result is the empty list. -/
theorem analysis4_spec (units : Table)
    (hnum : ∀ r ∈ units, (parseNum (getV r "TOT_INJRY_CNT")).isSome ∧
      (parseNum (getV r "DEATH_CNT")).isSome) :
    ∃ df, analysis4Df units = Except.ok df ∧
      analysis4 units = Except.ok (df.map (fun r => getV r "VEH_MAKE_ID")) ∧
      df.length ≤ 11 ∧
      df.Pairwise (fun a b => aggKey4 b ≤ aggKey4 a) ∧
      ((dedupF (units.map (fun r => getV r "VEH_MAKE_ID"))).countP (keptKey "NA") < 5 →
        df = []) := by
  have hA := withColumnAdd_ok units "TOTAL_INJ_DEATH_CNT" "TOT_INJRY_CNT" "DEATH_CNT" hnum
  have hparse : ∀ r ∈ units.map (addRow "TOTAL_INJ_DEATH_CNT" "TOT_INJRY_CNT" "DEATH_CNT"),
      (parseNum (getV r "TOTAL_INJ_DEATH_CNT")).isSome := by
    intro r hr
    obtain ⟨r0, _, rfl⟩ := List.mem_map.mp hr
    rw [getV_addRow_new]
    simp [parseNum]
  have hB' : groupBySum (units.map (addRow "TOTAL_INJ_DEATH_CNT" "TOT_INJRY_CNT" "DEATH_CNT"))
      "VEH_MAKE_ID" "TOTAL_INJ_DEATH_CNT" "AGG_TOTAL_INJ_DEATH_CNT" = Except.ok
      ((dedupF ((units.map (addRow "TOTAL_INJ_DEATH_CNT" "TOT_INJRY_CNT" "DEATH_CNT")).map
        (fun r => getV r "VEH_MAKE_ID"))).map
        (g4Row (fun v =>
          (((units.map (addRow "TOTAL_INJ_DEATH_CNT" "TOT_INJRY_CNT" "DEATH_CNT")).filter
            (fun r => getV r "VEH_MAKE_ID" == v)).map
            (fun r => (parseNum (getV r "TOTAL_INJ_DEATH_CNT")).getD 0)).foldr (· + ·) 0))) :=
    groupBySum_ok (units.map (addRow "TOTAL_INJ_DEATH_CNT" "TOT_INJRY_CNT" "DEATH_CNT"))
      "VEH_MAKE_ID" "TOTAL_INJ_DEATH_CNT" "AGG_TOTAL_INJ_DEATH_CNT" hparse
  have hmake : (units.map (addRow "TOTAL_INJ_DEATH_CNT" "TOT_INJRY_CNT" "DEATH_CNT")).map
      (fun r => getV r "VEH_MAKE_ID") = units.map (fun r => getV r "VEH_MAKE_ID") := by
    rw [List.map_map]
    apply List.map_congr_left
    intro r _
    exact getV_addRow_other _ _ _ _ r (by decide)
  obtain ⟨h11, hpw, hsc⟩ := analysis4Tail_spec
    (dedupF ((units.map (addRow "TOTAL_INJ_DEATH_CNT" "TOT_INJRY_CNT" "DEATH_CNT")).map
      (fun r => getV r "VEH_MAKE_ID")))
    (fun v =>
      (((units.map (addRow "TOTAL_INJ_DEATH_CNT" "TOT_INJRY_CNT" "DEATH_CNT")).filter
        (fun r => getV r "VEH_MAKE_ID" == v)).map
        (fun r => (parseNum (getV r "TOTAL_INJ_DEATH_CNT")).getD 0)).foldr (· + ·) 0)
  refine ⟨_, ?_, ?_, h11, hpw, ?_⟩
  · simp [analysis4Df, hA, hB', Bind.bind, Except.bind]
  · simp [analysis4, analysis4Df, hA, hB', Bind.bind, Except.bind, Except.map]
  · intro hlt
    apply hsc
    rw [hmake]
    exact hlt

/-- Witness for C6: the four-make scenario table satisfies the numeric
hypothesis and yields the rank-5-to-15 result via the theorem. -/
theorem analysis4_spec_witness :
    ∃ df, analysis4Df units4 = Except.ok df ∧
      analysis4 units4 = Except.ok (df.map (fun r => getV r "VEH_MAKE_ID")) ∧
      df.length ≤ 11 ∧
      df.Pairwise (fun a b => aggKey4 b ≤ aggKey4 a) ∧
      ((dedupF (units4.map (fun r => getV r "VEH_MAKE_ID"))).countP (keptKey "NA") < 5 →
        df = []) :=
  analysis4_spec units4 (by decide)

/-! ## C7 — analysis 8: candidate sets fixed from Units before the chain -/

/-- C7: analysis 8 factors through `analysis8Chain` applied to the top-10
colour and top-25 state sets computed by `topFreq` from the Units table
alone, so the candidate sets are fixed before the join/filter chain runs and
do not depend on Charges or Primary.  On the scenario tables this matters:
the full-Units top-10 colour set is C01..C10 (excluding the 11th colour C11
of crash 1), analysis 8 returns only FORD, while the alternative order that
computes the sets after the joins and SPEED/DRIVER filters would also keep
crash 1's KIA — the two orders give different results. -/
theorem analysis8_presets :
    (∀ units charges primary, analysis8 units charges primary =
      analysis8Chain units charges primary (topFreq units "VEH_COLOR_ID" 10)
        (topFreq units "VEH_LIC_STATE_ID" 25)) ∧
    topFreq units8 "VEH_COLOR_ID" 10 =
      [Value.str "C01", Value.str "C02", Value.str "C03", Value.str "C04", Value.str "C05",
       Value.str "C06", Value.str "C07", Value.str "C08", Value.str "C09", Value.str "C10"] ∧
    topFreq units8 "VEH_LIC_STATE_ID" 25 = [Value.str "TX"] ∧
    analysis8 units8 charges8 primary8 = [Value.str "FORD"] ∧
    analysis8AltOrder units8 charges8 primary8 = [Value.str "FORD", Value.str "KIA"] ∧
    analysis8 units8 charges8 primary8 ≠ analysis8AltOrder units8 charges8 primary8 :=
  ⟨fun _ _ _ => rfl, by decide, by decide, by decide, by decide, by decide⟩
